import Mathlib

/-!
Verification of the Slurm job cost estimator (`saga_cost_calculator.py`).

The Python source is shallowly embedded below.  Strings are processed as
`List Char`; Python `int` values are modelled as `ℤ`, Python `float`
values as `ℚ` (every arithmetic operation the program performs on the
inputs exercised here is exact in binary floating point, so `ℚ` mirrors
the computed values).  Python exceptions are modelled with `Except`.
-/

namespace SagaCost

/-- Python's `str.isspace`-style whitespace class used by `str.strip` and
the regex class `\s` (restricted to the ASCII range, which is all the
program's inputs use). -/
def pyIsSpace (c : Char) : Bool :=
  c == ' ' || c == '\t' || c == '\n' || c == '\r' || c == '\x0b' || c == '\x0c'

/-- Python `str.strip()`: remove leading and trailing whitespace. -/
def pyStrip (cs : List Char) : List Char :=
  ((cs.dropWhile pyIsSpace).reverse.dropWhile pyIsSpace).reverse

/-- Numeric value of a list of decimal digit characters. -/
def digitsToNat (cs : List Char) : ℕ :=
  cs.foldl (fun a c => 10 * a + (c.toNat - '0'.toNat)) 0

/-- Python `int(s)` on a string: strip whitespace, optional sign, then a
nonempty run of decimal digits; `none` models a raised `ValueError`. -/
def pyInt (cs : List Char) : Option ℤ :=
  match pyStrip cs with
  | '-' :: ds => if ds ≠ [] ∧ ds.all Char.isDigit then some (-(digitsToNat ds : ℤ)) else none
  | '+' :: ds => if ds ≠ [] ∧ ds.all Char.isDigit then some (digitsToNat ds : ℤ) else none
  | ds => if ds ≠ [] ∧ ds.all Char.isDigit then some (digitsToNat ds : ℤ) else none

/-- `parse_argument_to_int`: `None`/empty strings give `None`, otherwise
`int()` with `ValueError` caught to `None`. -/
def parse_argument_to_int (argument : Option String) : Option ℤ :=
  match argument with
  | none => none
  | some s => if s = "" then none else pyInt s.data

/-- Greedy match of `\d{1,2}` followed by the rest (the bounded repetition
of the time regexes); fails when the leading digit run is empty or longer
than two characters, exactly when the anchored regex fails. -/
def grab12 (cs : List Char) : Option (ℕ × List Char) :=
  let p := cs.span Char.isDigit
  if p.1 ≠ [] ∧ p.1.length ≤ 2 then some (digitsToNat p.1, p.2) else none

/-- `re.fullmatch(r'(\d+)-(\d{1,2}):(\d{1,2}):(\d{1,2})', s)`. -/
def matchDHMS (cs : List Char) : Option (ℕ × ℕ × ℕ × ℕ) :=
  let p := cs.span Char.isDigit
  match p.1, p.2 with
  | [], _ => none
  | _ :: _, '-' :: r =>
    match grab12 r with
    | some (hh, ':' :: r2) =>
      match grab12 r2 with
      | some (mm, ':' :: r3) =>
        match grab12 r3 with
        | some (ss, []) => some (digitsToNat p.1, hh, mm, ss)
        | _ => none
      | _ => none
    | _ => none
  | _, _ => none

/-- `re.fullmatch(r'(\d+):(\d{1,2}):(\d{1,2})', s)`. -/
def matchHMS (cs : List Char) : Option (ℕ × ℕ × ℕ) :=
  let p := cs.span Char.isDigit
  match p.1, p.2 with
  | [], _ => none
  | _ :: _, ':' :: r =>
    match grab12 r with
    | some (mm, ':' :: r2) =>
      match grab12 r2 with
      | some (ss, []) => some (digitsToNat p.1, mm, ss)
      | _ => none
    | _ => none
  | _, _ => none

/-- `re.fullmatch(r'(\d+):(\d{1,2})', s)`. -/
def matchMMSS (cs : List Char) : Option (ℕ × ℕ) :=
  let p := cs.span Char.isDigit
  match p.1, p.2 with
  | [], _ => none
  | _ :: _, ':' :: r =>
    match grab12 r with
    | some (ss, []) => some (digitsToNat p.1, ss)
    | _ => none
  | _, _ => none

/-- `re.fullmatch(r'\d+', s)`. -/
def matchMM (cs : List Char) : Option ℕ :=
  if cs ≠ [] ∧ cs.all Char.isDigit then some (digitsToNat cs) else none

/-- Body of `parse_time_to_hours` after the `strip()`: try the four time
formats in order, first full match wins. -/
def parseTimeString (s : String) : Option ℚ :=
  let cs := pyStrip s.data
  match matchDHMS cs with
  | some (d, hh, mm, ss) => some ((d : ℚ) * 24 + (hh : ℚ) + (mm : ℚ) / 60 + (ss : ℚ) / 3600)
  | none =>
    match matchHMS cs with
    | some (hh, mm, ss) => some ((hh : ℚ) + (mm : ℚ) / 60 + (ss : ℚ) / 3600)
    | none =>
      match matchMMSS cs with
      | some (mm, ss) => some ((mm : ℚ) / 60 + (ss : ℚ) / 3600)
      | none =>
        match matchMM cs with
        | some mm => some ((mm : ℚ) / 60)
        | none => none

/-- `parse_time_to_hours`: falsy argument (absent or empty) gives `None`. -/
def parse_time_to_hours (time_argument : Option String) : Option ℚ :=
  match time_argument with
  | none => none
  | some s => if s = "" then none else parseTimeString s

/-- The error conditions of the program, identified by condition (all are
`ValueError`s in the source; `memIntConversion` is the uncaught error
raised by `int()` on a fractional amount inside `parse_mem_to_gigabytes`). -/
inductive JobCostError where
  | invalidHeaderSyntax
  | timeUnspecified
  | memoryUnspecified
  | memIntConversion
deriving DecidableEq

/-- The `BYTES_IN_KILOBYTE` constant. -/
def BYTES_IN_KILOBYTE : ℚ := 1024

/-- Round to the nearest integer, ties to even (Python's `round`). -/
def roundHalfEven (q : ℚ) : ℤ :=
  if q - ⌊q⌋ < 1 / 2 then ⌊q⌋
  else if q - ⌊q⌋ > 1 / 2 then ⌊q⌋ + 1
  else if ⌊q⌋ % 2 = 0 then ⌊q⌋ else ⌊q⌋ + 1

/-- Python `round(q, 4)`. -/
def pyRound4 (q : ℚ) : ℚ := (roundHalfEven (q * 10000) : ℚ) / 10000

/-- The unit alternatives of the regex group `([kmgt](?:i?b)?|)`, in the
regex's preference order, paired with the unmatched remainder. -/
def unitCandidates (cs : List Char) : List (List Char × List Char) :=
  (match cs with
   | c :: r =>
     if ['k', 'm', 'g', 't'].contains c.toLower then
       (match r with
        | i :: b :: r2 =>
          if i.toLower == 'i' && b.toLower == 'b' then [([c, i, b], r2)] else []
        | _ => []) ++
       (match r with
        | b :: r2 => if b.toLower == 'b' then [([c, b], r2)] else []
        | _ => []) ++
       [([c], r)]
     else []
   | [] => []) ++ [([], cs)]

/-- `re.fullmatch(r'(?i)\s*(\d+(?:\.\d+)?)\s*([kmgt](?:i?b)?|)\s*', s)`:
the two capture groups (number, unit as matched). -/
def memFullmatch (cs : List Char) : Option (List Char × List Char) :=
  let cs := cs.dropWhile pyIsSpace
  let p := cs.span Char.isDigit
  match p.1 with
  | [] => none
  | _ :: _ =>
    let numAndRest : List Char × List Char :=
      match p.2 with
      | '.' :: r2 =>
        let f := r2.span Char.isDigit
        match f.1 with
        | [] => (p.1, p.2)
        | _ :: _ => (p.1 ++ '.' :: f.1, f.2)
      | _ => (p.1, p.2)
    (unitCandidates (numAndRest.2.dropWhile pyIsSpace)).findSome? fun u =>
      if u.2.dropWhile pyIsSpace == ([] : List Char) then some (numAndRest.1, u.1)
      else none

/-- `parse_mem_to_gigabytes`. `.ok none` is Python `None`; `.error` models
the uncaught `ValueError` raised by `int()` when the matched number has a
fractional part. -/
def parse_mem_to_gigabytes (memory_argument : Option String) :
    Except JobCostError (Option ℚ) :=
  match memory_argument with
  | none => .ok none
  | some s =>
    if s = "" then .ok none
    else
      match memFullmatch (pyStrip s.data) with
      | none => .ok none
      | some (num, unitRaw) =>
        let unit := unitRaw.map Char.toLower
        if num.contains '.' then .error .memIntConversion
        else
          let amount : ℚ := (digitsToNat num : ℚ)
          if unit == "k".data || unit == "kb".data || unit == "gib".data then
            .ok (some (pyRound4 (amount * BYTES_IN_KILOBYTE ^ 1 / BYTES_IN_KILOBYTE ^ 3)))
          else if unit == "m".data || unit == "mb".data || unit == "gib".data then
            .ok (some (pyRound4 (amount * BYTES_IN_KILOBYTE ^ 2 / BYTES_IN_KILOBYTE ^ 3)))
          else if unit == "g".data || unit == "gb".data || unit == "gib".data then
            .ok (some (pyRound4 (amount * BYTES_IN_KILOBYTE ^ 3 / BYTES_IN_KILOBYTE ^ 3)))
          else if unit == "t".data || unit == "tb".data || unit == "gib".data then
            .ok (some (pyRound4 (amount * BYTES_IN_KILOBYTE ^ 4 / BYTES_IN_KILOBYTE ^ 3)))
          else .ok none

/-- Python `str.split(c)`: split at every occurrence of `c`. -/
def splitAll (c : Char) : List Char → List (List Char)
  | [] => [[]]
  | x :: xs =>
    if x == c then [] :: splitAll c xs
    else
      match splitAll c xs with
      | [] => [[x]]
      | g :: gs => (x :: g) :: gs

/-- Python `str.split(c, 1)`: the part before the first occurrence of `c`,
and the part after it when `c` occurs at all. -/
def splitFirst (c : Char) : List Char → List Char × Option (List Char)
  | [] => ([], none)
  | x :: xs =>
    if x == c then ([], some xs)
    else
      let p := splitFirst c xs
      (x :: p.1, p.2)

/-- Body of the `--array` loop for one comma-separated item; `.error`
models a raised exception (caught by the enclosing `try`); an empty item
is skipped (`continue`), contributing `0`. -/
def arrayItemCount (partRaw : List Char) : Except Unit ℤ :=
  let part0 := pyStrip partRaw
  if part0 == ([] : List Char) then .ok 0
  else
    let part := (splitFirst '%' part0).1
    if part.contains '-' then
      let rs := splitFirst ':' part
      let step_str := rs.2.getD ['1']
      let se := splitFirst '-' rs.1
      match se.2 with
      | none => .error ()
      | some end_str =>
        match pyInt se.1, pyInt end_str, pyInt step_str with
        | some start, some stop, some step0 =>
          let step := if step0 ≤ 0 then 1 else step0
          if stop < start then .ok 1
          else .ok (Int.fdiv (stop - start) step + 1)
        | _, _, _ => .error ()
    else
      match pyInt part with
      | some _ => .ok 1
      | none => .error ()

/-- The `for` loop of `parse_array_count` accumulating `total`,
propagating the first raised exception. -/
def sumArrayItems : List (List Char) → Except Unit ℤ
  | [] => .ok 0
  | p :: rest =>
    match arrayItemCount p with
    | .error e => .error e
    | .ok n =>
      match sumArrayItems rest with
      | .error e => .error e
      | .ok t => .ok (n + t)

/-- `parse_array_count`. -/
def parse_array_count (array_spec : Option String) : ℤ :=
  match array_spec with
  | none => 1
  | some s =>
    if s = "" then 1
    else
      match sumArrayItems (splitAll ',' (pyStrip s.data)) with
      | .error _ => 1
      | .ok total => if total > 0 then total else 1

/-- The canonical per-task resource record returned by `parse_slurmargs`. -/
structure ParsedSlurmArgs where
  hours : ℚ
  cpus : ℤ
  memory_gb : ℚ
  array_count : ℤ
deriving DecidableEq

/-- Python dict lookup `d.get(k)` for the extracted argument mapping. -/
def dictGet (d : List (String × String)) (k : String) : Option String :=
  (d.find? fun p => p.1 == k).map fun p => p.2

/-- `parse_slurmargs`: normalize SBATCH options to per-task resource
metrics and array size; raises on missing/unparsable time and on memory
that yields no value from `mem` and `mem-per-cpu` alike. -/
def parse_slurmargs (slurmargs : List (String × String)) :
    Except JobCostError ParsedSlurmArgs :=
  let ntasks :=
    match parse_argument_to_int (dictGet slurmargs "ntasks") with
    | some n => n
    | none =>
      match parse_argument_to_int (dictGet slurmargs "tasks-per-node"),
            parse_argument_to_int (dictGet slurmargs "nodes") with
      | some tpn, some nodes => tpn * nodes
      | _, _ => 1
  let cpus_per_task := (parse_argument_to_int (dictGet slurmargs "cpus-per-task")).getD 1
  let cpus := ntasks * cpus_per_task
  match parse_time_to_hours (dictGet slurmargs "time") with
  | none => .error .timeUnspecified
  | some hours =>
    match parse_mem_to_gigabytes (dictGet slurmargs "mem") with
    | .error e => .error e
    | .ok (some m) =>
      .ok { hours := hours, cpus := cpus, memory_gb := m,
            array_count := parse_array_count (dictGet slurmargs "array") }
    | .ok none =>
      match parse_mem_to_gigabytes (dictGet slurmargs "mem-per-cpu") with
      | .error e => .error e
      | .ok none => .error .memoryUnspecified
      | .ok (some mpc) =>
        .ok { hours := hours, cpus := cpus, memory_gb := mpc * (cpus : ℚ),
              array_count := parse_array_count (dictGet slurmargs "array") }

/-- The `SLURMARG_CONVERSIONS` alias table. -/
def SLURMARG_CONVERSIONS : List (String × String) :=
  [("c", "cpus-per-task"), ("n", "ntasks"), ("N", "nodes"), ("t", "time"),
   ("J", "job-name"), ("o", "output"), ("e", "error"), ("A", "account"),
   ("p", "partition"), ("m", "mail-type"),
   ("cpus-per-task", "cpus-per-task"), ("ntasks", "ntasks"),
   ("ntasks-per-node", "ntasks-per-node"), ("tasks-per-node", "ntasks-per-node"),
   ("nodes", "nodes"), ("time", "time"), ("time-min", "time-min"),
   ("job-name", "job-name"), ("output", "output"), ("error", "error"),
   ("account", "account"), ("partition", "partition"), ("nodelist", "nodelist"),
   ("qos", "qos"), ("mail-type", "mail-type"), ("mail-user", "mail-user"),
   ("mem", "mem"), ("mem-per-cpu", "mem-per-cpu"), ("array", "array")]

/-- `SLURMARG_CONVERSIONS.get(slurmarg, slurmarg)`. -/
def convertSlurmarg (k : String) : String :=
  ((SLURMARG_CONVERSIONS.find? fun p => p.1 == k).map fun p => p.2).getD k

/-- The character class `[A-Za-z0-9_-]` of long option names. -/
def longNameChar (c : Char) : Bool :=
  c.isAlpha || c.isDigit || c == '_' || c == '-'

/-- Match a literal character sequence and return the remainder. -/
def dropLit : List Char → List Char → Option (List Char)
  | [], cs => some cs
  | p :: ps, c :: cs => if c == p then dropLit ps cs else none
  | _ :: _, [] => none

/-- The value part `(?:=(?=[^\r\n]*\S)[^\r\n]+|\s+(?=[^\r\n]*\S)[^\r\n]+)$`
of the header regex, right after the option name. -/
def matchValue (cs : List Char) : Option (List Char) :=
  match cs with
  | '=' :: v =>
    if v.any (fun c => !(pyIsSpace c)) && !(v.contains '\n') && !(v.contains '\r')
    then some v else none
  | c :: _ =>
    if pyIsSpace c then
      let v := cs.dropWhile pyIsSpace
      if !v.isEmpty && !(v.contains '\n') && !(v.contains '\r') then some v else none
    else none
  | [] => none

/-- One line of `SLURMHEADER_PATTERN`:
`^\s*\#SBATCH\s+(?:--(long)|-(short))(?:=(val)|\s+(val))$`, returning the
raw option name and raw value.  A script text is modelled as its list of
newline-free lines; with `re.MULTILINE` the anchored pattern matches the
text exactly where it matches one of its lines. -/
def lineMatch (line : String) : Option (String × String) :=
  match dropLit "#SBATCH".data (line.data.dropWhile pyIsSpace) with
  | none => none
  | some r =>
    match r with
    | c :: _ =>
      if pyIsSpace c then
        match r.dropWhile pyIsSpace with
        | '-' :: '-' :: rest =>
          let p := rest.span longNameChar
          match p.1 with
          | [] => none
          | _ :: _ => (matchValue p.2).map fun v => (⟨p.1⟩, ⟨v⟩)
        | '-' :: c2 :: rest =>
          if c2.isAlpha then (matchValue rest).map fun v => (⟨[c2]⟩, ⟨v⟩) else none
        | _ => none
      else none
    | [] => none

/-- The quoting test
`len(v) >= 2 and v[0] == v[-1] and v[0] in "'\""` on a value. -/
def isQuoted (v : List Char) : Bool :=
  match v with
  | c :: _ :: _ => (v.getLast? == some c) && (c == Char.ofNat 39 || c == '"')
  | _ => false

/-- Python dict assignment `d[k] = v` on an association list with unique
keys: update in place, or append a new binding. -/
def dictSet (d : List (String × String)) (k v : String) : List (String × String) :=
  match d with
  | [] => [(k, v)]
  | (k0, v0) :: rest => if k0 == k then (k, v) :: rest else (k0, v0) :: dictSet rest k v

/-- The extraction loop over the regex matches: alias conversion, value
strip, the `#` check (raises `ValueError`), quote stripping, and the dict
update under which the last occurrence of a key wins. -/
def processMatches : List (String × String) → List (String × String) →
    Except JobCostError (List (String × String))
  | [], d => .ok d
  | (k, v) :: rest, d =>
    let k1 := convertSlurmarg k
    let v1 := pyStrip v.data
    if v1.contains '#' then .error .invalidHeaderSyntax
    else
      let v2 := if isQuoted v1 then pyStrip (v1.drop 1).dropLast else v1
      processMatches rest (dictSet d k1 ⟨v2⟩)

/-- `extract_slurmheader_arguments` on a script given as its lines. -/
def extract_slurmheader_arguments (lines : List String) :
    Except JobCostError (List (String × String)) :=
  processMatches (lines.filterMap lineMatch) []

/-- The `extract → normalize` part of the `__main__` pipeline. -/
def extract_and_parse (lines : List String) : Except JobCostError ParsedSlurmArgs :=
  match extract_slurmheader_arguments lines with
  | .error e => .error e
  | .ok d => parse_slurmargs d

/-- A script whose header declares `tasks-per-node=4` and `nodes=3`, has
no `ntasks` directive, and supplies valid time and memory. -/
def tasksPerNodeScript : List String :=
  ["#!/bin/bash", "#SBATCH --tasks-per-node=4", "#SBATCH --nodes=3",
   "#SBATCH --time=01:00:00", "#SBATCH --mem=4G"]

/-- The header map the script above extracts to. -/
def tasksPerNodeDict : List (String × String) :=
  [("ntasks-per-node", "4"), ("nodes", "3"), ("time", "01:00:00"), ("mem", "4G")]

/-- Values indexed by the three queues. -/
structure QueueVals where
  normal : ℚ
  bigmem : ℚ
  hugemem : ℚ
deriving DecidableEq

/-- One cost breakdown (per task, or total over the array). -/
structure CostBreakdown where
  cpu_hours : ℚ
  mem_hours : QueueVals
  charged : QueueVals
deriving DecidableEq

/-- The full result of `calculate_sbatch_jobcost_per_queue`. -/
structure CostDetails where
  hours : ℚ
  cpus : ℤ
  memory_gb : ℚ
  array_count : ℤ
  per_task : CostBreakdown
  total : CostBreakdown
deriving DecidableEq

def NORMAL_QUEUE_MEMORY_FACTOR : ℚ := 0.2577031

def BIGMEM_QUEUE_MEMORY_FACTOR : ℚ := 0.1104972

def HUGEMEM_QUEUE_MEMORY_FACTOR : ℚ := 0.01059603

/-- `calculate_cpu_hours`. -/
def calculate_cpu_hours (hours : ℚ) (cpus : ℤ) : ℚ := (cpus : ℚ) * hours

/-- `calculate_mem_hours`. -/
def calculate_mem_hours (hours mem_gb queue_factor : ℚ) : ℚ :=
  mem_gb * hours * queue_factor

/-- `calculate_sbatch_jobcost_per_queue` (the `float()`/`int()` reads of
the already-typed record fields are identities). -/
def calculate_sbatch_jobcost_per_queue (p : ParsedSlurmArgs) : CostDetails :=
  let per_task_cpu_hours := calculate_cpu_hours p.hours p.cpus
  let per_task_mem_normal := calculate_mem_hours p.hours p.memory_gb NORMAL_QUEUE_MEMORY_FACTOR
  let per_task_mem_bigmem := calculate_mem_hours p.hours p.memory_gb BIGMEM_QUEUE_MEMORY_FACTOR
  let per_task_mem_hugemem := calculate_mem_hours p.hours p.memory_gb HUGEMEM_QUEUE_MEMORY_FACTOR
  let per_task_charged_normal := max per_task_cpu_hours per_task_mem_normal
  let per_task_charged_bigmem := max per_task_cpu_hours per_task_mem_bigmem
  let per_task_charged_hugemem := max per_task_cpu_hours per_task_mem_hugemem
  { hours := p.hours, cpus := p.cpus, memory_gb := p.memory_gb,
    array_count := p.array_count,
    per_task :=
      { cpu_hours := per_task_cpu_hours,
        mem_hours := { normal := per_task_mem_normal, bigmem := per_task_mem_bigmem,
                       hugemem := per_task_mem_hugemem },
        charged := { normal := per_task_charged_normal, bigmem := per_task_charged_bigmem,
                     hugemem := per_task_charged_hugemem } },
    total :=
      { cpu_hours := per_task_cpu_hours * (p.array_count : ℚ),
        mem_hours := { normal := per_task_mem_normal * (p.array_count : ℚ),
                       bigmem := per_task_mem_bigmem * (p.array_count : ℚ),
                       hugemem := per_task_mem_hugemem * (p.array_count : ℚ) },
        charged := { normal := per_task_charged_normal * (p.array_count : ℚ),
                     bigmem := per_task_charged_bigmem * (p.array_count : ℚ),
                     hugemem := per_task_charged_hugemem * (p.array_count : ℚ) } } }

/-! ### Helper lemmas -/

/-- Decidable equality of `Except` values, to evaluate the embedded
functions on concrete inputs. -/
instance {ε : Type u} {α : Type v} [DecidableEq ε] [DecidableEq α] :
    DecidableEq (Except ε α)
  | .ok a, .ok b =>
    if h : a = b then .isTrue (by rw [h])
    else .isFalse fun hh => h (Except.ok.inj hh)
  | .ok _, .error _ => .isFalse fun hh => Except.noConfusion hh
  | .error _, .ok _ => .isFalse fun hh => Except.noConfusion hh
  | .error e1, .error e2 =>
    if h : e1 = e2 then .isTrue (by rw [h])
    else .isFalse fun hh => h (Except.error.inj hh)

theorem mem_dropWhile_of_mem {x : α} {p : α → Bool} {l : List α}
    (hx : x ∈ l) (hp : p x = false) : x ∈ l.dropWhile p := by
  induction l with
  | nil => cases hx
  | cons a t ih =>
    rw [List.dropWhile_cons]
    rcases List.mem_cons.mp hx with rfl | hx2
    · simp [hp]
    · by_cases hpa : p a
      · simp [hpa, ih hx2]
      · simp [hpa, List.mem_cons.mpr (Or.inr hx2)]

/-- Stripping whitespace neither adds nor removes non-whitespace
characters. -/
theorem mem_pyStrip {x : Char} (hx : pyIsSpace x = false) (cs : List Char) :
    x ∈ pyStrip cs ↔ x ∈ cs := by
  unfold pyStrip
  constructor
  · intro h
    exact (List.dropWhile_sublist pyIsSpace).subset
      (List.mem_reverse.mp
        ((List.dropWhile_sublist pyIsSpace).subset (List.mem_reverse.mp h)))
  · intro h
    exact List.mem_reverse.mpr
      (mem_dropWhile_of_mem (List.mem_reverse.mpr (mem_dropWhile_of_mem h hx)) hx)

theorem contains_iff_mem {a : Char} {l : List Char} : l.contains a = true ↔ a ∈ l := by
  simp [List.contains]

theorem roundHalfEven_intCast (n : ℤ) : roundHalfEven (n : ℚ) = n := by
  unfold roundHalfEven
  rw [Int.floor_intCast]
  norm_num

theorem pyRound4_natCast (n : ℕ) : pyRound4 ((n : ℕ) : ℚ) = n := by
  unfold pyRound4
  have h : ((n : ℚ)) * 10000 = (((n * 10000 : ℕ) : ℤ) : ℚ) := by push_cast; ring
  rw [h, roundHalfEven_intCast]
  push_cast
  field_simp

theorem roundHalfEven_le (q : ℚ) : (roundHalfEven q : ℚ) ≤ q + 1 := by
  unfold roundHalfEven
  have hf := Int.floor_le q
  split_ifs <;> push_cast <;> linarith

theorem pyRound4_le (q : ℚ) : pyRound4 q ≤ q + 1 / 10000 := by
  unfold pyRound4
  calc (roundHalfEven (q * 10000) : ℚ) / 10000
      ≤ (q * 10000 + 1) / 10000 := by gcongr; exact roundHalfEven_le (q * 10000)
    _ = q + 1 / 10000 := by ring

/-- Every value produced by a successful time parse is nonnegative. -/
theorem parseTimeString_nonneg (s : String) (q : ℚ)
    (h : parseTimeString s = some q) : 0 ≤ q := by
  unfold parseTimeString at h
  dsimp only at h
  rcases h1 : matchDHMS (pyStrip s.data) with _ | ⟨d, hh, mm, ss⟩ <;> rw [h1] at h
  · rcases h2 : matchHMS (pyStrip s.data) with _ | ⟨hh, mm, ss⟩ <;> rw [h2] at h
    · rcases h3 : matchMMSS (pyStrip s.data) with _ | ⟨mm, ss⟩ <;> rw [h3] at h
      · rcases h4 : matchMM (pyStrip s.data) with _ | mm <;> rw [h4] at h
        · cases h
        · injection h with h5
          subst h5
          positivity
      · injection h with h5
        subst h5
        positivity
    · injection h with h5
      subst h5
      positivity
  · injection h with h5
    subst h5
    positivity

theorem parse_time_to_hours_nonneg (a : Option String) (q : ℚ)
    (h : parse_time_to_hours a = some q) : 0 ≤ q := by
  unfold parse_time_to_hours at h
  rcases a with _ | s
  · cases h
  · dsimp only at h
    by_cases hs : s = ""
    · rw [if_pos hs] at h; cases h
    · rw [if_neg hs] at h; exact parseTimeString_nonneg s q h

/-- The array-count parser always reports at least one task. -/
theorem parse_array_count_ge_one (a : Option String) : 1 ≤ parse_array_count a := by
  unfold parse_array_count
  rcases a with _ | s
  · norm_num
  · dsimp only
    by_cases hs : s = ""
    · simp [hs]
    · rw [if_neg hs]
      rcases h : sumArrayItems (splitAll ',' (pyStrip s.data)) with e | t
      · norm_num
      · dsimp only
        split_ifs with ht
        · omega
        · norm_num

/-- The only exception `parse_mem_to_gigabytes` can raise is the `int()`
conversion error. -/
theorem parse_mem_error_eq (a : Option String) (e : JobCostError)
    (h : parse_mem_to_gigabytes a = .error e) : e = .memIntConversion := by
  unfold parse_mem_to_gigabytes at h
  rcases a with _ | s
  · cases h
  · dsimp only at h
    by_cases hs : s = ""
    · rw [if_pos hs] at h; cases h
    · rw [if_neg hs] at h
      rcases hmm : memFullmatch (pyStrip s.data) with _ | ⟨num, u⟩ <;> rw [hmm] at h
      · cases h
      · dsimp only at h
        split_ifs at h
        exact (Except.error.inj h).symm

/-- Evaluation helper: a memory string whose raw value is the gigabyte
branch applied to `n` yields exactly `n` GiB. -/
theorem parse_mem_gigabyte_value (s : String) (n : ℕ)
    (h : parse_mem_to_gigabytes (some s) =
      .ok (some (pyRound4 ((n : ℚ) * BYTES_IN_KILOBYTE ^ 3 / BYTES_IN_KILOBYTE ^ 3)))) :
    parse_mem_to_gigabytes (some s) = .ok (some ((n : ℕ) : ℚ)) := by
  rw [h]
  have h2 : (n : ℚ) * BYTES_IN_KILOBYTE ^ 3 / BYTES_IN_KILOBYTE ^ 3 = ((n : ℕ) : ℚ) := by
    rw [mul_div_assoc]
    norm_num [BYTES_IN_KILOBYTE]
  rw [h2, pyRound4_natCast]

/-- On every raw header map on which normalization succeeds, the record's
hours come from the time parse and the array count from the array parse. -/
theorem parse_slurmargs_ok_fields (d : List (String × String)) (r : ParsedSlurmArgs)
    (h : parse_slurmargs d = .ok r) :
    parse_time_to_hours (dictGet d "time") = some r.hours ∧
    r.array_count = parse_array_count (dictGet d "array") := by
  unfold parse_slurmargs at h
  dsimp only at h
  rcases ht : parse_time_to_hours (dictGet d "time") with _ | q <;> rw [ht] at h
  · cases h
  · dsimp only at h
    rcases hm : parse_mem_to_gigabytes (dictGet d "mem") with e | m <;> rw [hm] at h
    · cases h
    · rcases m with _ | mv
      · dsimp only at h
        rcases hm2 : parse_mem_to_gigabytes (dictGet d "mem-per-cpu") with e2 | m2 <;>
          rw [hm2] at h
        · cases h
        · rcases m2 with _ | m2v
          · cases h
          · dsimp only at h
            injection h with h2
            subst h2
            exact ⟨rfl, rfl⟩
      · dsimp only at h
        injection h with h2
        subst h2
        exact ⟨rfl, rfl⟩

/-- The extraction loop errors exactly when some matched raw value
contains `#`. -/
theorem processMatches_error_iff (ms : List (String × String)) (d : List (String × String)) :
    processMatches ms d = .error .invalidHeaderSyntax ↔
      ∃ kv ∈ ms, ('#' : Char) ∈ kv.2.data := by
  induction ms generalizing d with
  | nil => simp [processMatches]
  | cons kv rest ih =>
    obtain ⟨k, v⟩ := kv
    simp only [processMatches]
    by_cases hc : (pyStrip v.data).contains '#'
    · rw [if_pos hc]
      have hmem : ('#' : Char) ∈ v.data :=
        (mem_pyStrip (show pyIsSpace '#' = false from rfl) v.data).mp (contains_iff_mem.mp hc)
      simp [hmem]
    · rw [if_neg hc]
      have hmem : ¬ ('#' : Char) ∈ v.data := fun hx =>
        hc (contains_iff_mem.mpr ((mem_pyStrip (show pyIsSpace '#' = false from rfl) v.data).mpr hx))
      simp [ih, hmem]

/-- The extraction loop raises no error other than the `#` one. -/
theorem processMatches_error_only (ms : List (String × String)) (d : List (String × String))
    (e : JobCostError) (h : processMatches ms d = .error e) : e = .invalidHeaderSyntax := by
  induction ms generalizing d with
  | nil => cases h
  | cons kv rest ih =>
    obtain ⟨k, v⟩ := kv
    simp only [processMatches] at h
    by_cases hc : (pyStrip v.data).contains '#'
    · rw [if_pos hc] at h
      exact (Except.error.inj h).symm
    · rw [if_neg hc] at h
      exact ih _ h

/-! ### Claims -/

/-- C1: For every memory directive value whose unit suffix is `gib` in
any letter case (e.g. `"16GiB"`), the memory parser dispatches to the
first branch in evaluation order — the kilobyte branch — and returns
`round(amount * 1024^1 / 1024^3, 4)`, rather than applying the
gibibyte/gigabyte identity conversion (the second conjunct: the result is
never the identity-converted `amount`). -/
theorem c1_gib_dispatches_to_kilobyte_branch
    (s : String) (num unitRaw : List Char) (a : ℕ)
    (hm : memFullmatch (pyStrip s.data) = some (num, unitRaw))
    (hu : unitRaw.map Char.toLower = "gib".data)
    (hnum : num.contains '.' = false)
    (ha : digitsToNat num = a) :
    parse_mem_to_gigabytes (some s) =
      .ok (some (pyRound4 ((a : ℚ) * BYTES_IN_KILOBYTE ^ 1 / BYTES_IN_KILOBYTE ^ 3))) ∧
    (1 ≤ a → parse_mem_to_gigabytes (some s) ≠ .ok (some ((a : ℚ)))) := by
  have hs : s ≠ "" := by
    intro h
    subst h
    rw [show pyStrip ("" : String).data = ([] : List Char) from rfl,
        show memFullmatch ([] : List Char) = none from rfl] at hm
    cases hm
  have hmain : parse_mem_to_gigabytes (some s) =
      .ok (some (pyRound4 ((a : ℚ) * BYTES_IN_KILOBYTE ^ 1 / BYTES_IN_KILOBYTE ^ 3))) := by
    unfold parse_mem_to_gigabytes
    dsimp only
    rw [if_neg hs, hm]
    dsimp only
    simp only [hu, hnum, ha]
    rfl
  refine ⟨hmain, fun ha1 hbad => ?_⟩
  rw [hmain] at hbad
  have heq : pyRound4 ((a : ℚ) * BYTES_IN_KILOBYTE ^ 1 / BYTES_IN_KILOBYTE ^ 3) = (a : ℚ) :=
    Option.some.inj (Except.ok.inj hbad)
  have hlt : pyRound4 ((a : ℚ) * BYTES_IN_KILOBYTE ^ 1 / BYTES_IN_KILOBYTE ^ 3) < (a : ℚ) := by
    have hb := pyRound4_le ((a : ℚ) * BYTES_IN_KILOBYTE ^ 1 / BYTES_IN_KILOBYTE ^ 3)
    have ha2 : (1 : ℚ) ≤ (a : ℚ) := by exact_mod_cast ha1
    have hx : (a : ℚ) * BYTES_IN_KILOBYTE ^ 1 / BYTES_IN_KILOBYTE ^ 3 = (a : ℚ) / 1048576 := by
      simp only [BYTES_IN_KILOBYTE]
      norm_num
      ring
    rw [hx] at hb ⊢
    linarith
  exact absurd heq (ne_of_lt hlt)

/-- C1 witness: the concrete value `"16GiB"` goes through the kilobyte
branch and in particular is not converted by the identity. -/
theorem c1_gib_witness :
    parse_mem_to_gigabytes (some "16GiB") =
      .ok (some (pyRound4 (((16 : ℕ) : ℚ) * BYTES_IN_KILOBYTE ^ 1 / BYTES_IN_KILOBYTE ^ 3))) ∧
    parse_mem_to_gigabytes (some "16GiB") ≠ .ok (some (((16 : ℕ) : ℚ))) :=
  ⟨(c1_gib_dispatches_to_kilobyte_branch "16GiB" "16".data "GiB".data 16 rfl rfl rfl rfl).1,
   (c1_gib_dispatches_to_kilobyte_branch "16GiB" "16".data "GiB".data 16 rfl rfl rfl rfl).2
     (by norm_num)⟩

/-- C2 (recording the code bug): the unitless value `"16000"` matches the
numeric+unit grammar (unit group empty), yet no dispatch branch covers
the empty unit, so the parser returns `None` instead of a GiB value. -/
theorem c2_unitless_memory_yields_none :
    memFullmatch (pyStrip "16000".data) = some ("16000".data, ("" : String).data) ∧
    parse_mem_to_gigabytes (some "16000") = .ok none :=
  ⟨rfl, rfl⟩

/-- C3 (recording the code bug): extraction canonicalizes
`tasks-per-node` to `ntasks-per-node`, while the normalizer looks up
`tasks-per-node`, so the `tasks_per_node × nodes` fallback never fires
through the pipeline: the canonical record has `cpus = 1`, not `12`. -/
theorem c3_tasks_per_node_fallback_is_dead :
    extract_slurmheader_arguments tasksPerNodeScript = .ok tasksPerNodeDict ∧
    extract_and_parse tasksPerNodeScript =
      .ok { hours := 1, cpus := 1, memory_gb := 4, array_count := 1 } ∧
    ({ hours := 1, cpus := 1, memory_gb := 4, array_count := 1 } : ParsedSlurmArgs).cpus ≠ 12 := by
  refine ⟨rfl, ?_, by decide⟩
  have hex : extract_slurmheader_arguments tasksPerNodeScript = .ok tasksPerNodeDict := rfl
  unfold extract_and_parse
  rw [hex]
  dsimp only
  have ht : parse_time_to_hours (dictGet tasksPerNodeDict "time") = some 1 := by
    rw [show dictGet tasksPerNodeDict "time" = some "01:00:00" from rfl,
        show parse_time_to_hours (some "01:00:00") =
          some (((1 : ℕ) : ℚ) + ((0 : ℕ) : ℚ) / 60 + ((0 : ℕ) : ℚ) / 3600) from rfl]
    norm_num
  have hm : parse_mem_to_gigabytes (dictGet tasksPerNodeDict "mem") = .ok (some ((4 : ℕ) : ℚ)) := by
    rw [show dictGet tasksPerNodeDict "mem" = some "4G" from rfl]
    exact parse_mem_gigabyte_value "4G" 4 rfl
  unfold parse_slurmargs
  dsimp only
  rw [ht, hm]
  rfl

/-- C4 counterexample: a header map on which normalization returns
without raising while `hours > 0`, `cpus ≥ 1` and `memory_gb ≥ 0` all
fail (only `array_count ≥ 1` survives). -/
theorem c4_invariants_counterexample :
    parse_slurmargs [("time", "0"), ("ntasks", "-1"), ("mem-per-cpu", "1G")] =
      .ok { hours := 0, cpus := -1, memory_gb := -1, array_count := 1 } ∧
    ¬ ((0 : ℚ) > 0 ∧ (1 : ℤ) ≤ -1 ∧ (0 : ℚ) ≤ -1 ∧ (1 : ℤ) ≤ 1) := by
  constructor
  · have ht : parse_time_to_hours
        (dictGet [("time", "0"), ("ntasks", "-1"), ("mem-per-cpu", "1G")] "time") = some 0 := by
      rw [show dictGet [("time", "0"), ("ntasks", "-1"), ("mem-per-cpu", "1G")] "time" =
            some "0" from rfl,
          show parse_time_to_hours (some "0") = some (((0 : ℕ) : ℚ) / 60) from rfl]
      norm_num
    have hm2 : parse_mem_to_gigabytes
        (dictGet [("time", "0"), ("ntasks", "-1"), ("mem-per-cpu", "1G")] "mem-per-cpu") =
        .ok (some ((1 : ℕ) : ℚ)) := by
      rw [show dictGet [("time", "0"), ("ntasks", "-1"), ("mem-per-cpu", "1G")] "mem-per-cpu" =
            some "1G" from rfl]
      exact parse_mem_gigabyte_value "1G" 1 rfl
    unfold parse_slurmargs
    dsimp only
    rw [ht,
        show parse_mem_to_gigabytes
          (dictGet [("time", "0"), ("ntasks", "-1"), ("mem-per-cpu", "1G")] "mem") =
          .ok none from rfl,
        hm2,
        show parse_argument_to_int
          (dictGet [("time", "0"), ("ntasks", "-1"), ("mem-per-cpu", "1G")] "ntasks") =
          some (-1) from rfl,
        show parse_argument_to_int
          (dictGet [("time", "0"), ("ntasks", "-1"), ("mem-per-cpu", "1G")] "cpus-per-task") =
          none from rfl,
        show parse_array_count
          (dictGet [("time", "0"), ("ntasks", "-1"), ("mem-per-cpu", "1G")] "array") =
          1 from rfl]
    dsimp only [Option.getD]
    simp only [Except.ok.injEq, ParsedSlurmArgs.mk.injEq]
    norm_num
  · norm_num

/-- C4 amended: for every raw header map on which normalization returns
without raising, the record satisfies `hours ≥ 0` and `array_count ≥ 1`;
the stronger claimed bounds `hours > 0`, `cpus ≥ 1` and `memory_gb ≥ 0`
are refuted by the counterexample. -/
theorem c4_invariants_amended (d : List (String × String)) (r : ParsedSlurmArgs)
    (h : parse_slurmargs d = .ok r) : 0 ≤ r.hours ∧ 1 ≤ r.array_count := by
  obtain ⟨ht, ha⟩ := parse_slurmargs_ok_fields d r h
  exact ⟨parse_time_to_hours_nonneg _ _ ht, ha ▸ parse_array_count_ge_one _⟩

/-- C4 witness: the amended invariant at a concrete successful map. -/
theorem c4_invariants_witness :
    0 ≤ (ParsedSlurmArgs.mk 1 1 4 1).hours ∧ 1 ≤ (ParsedSlurmArgs.mk 1 1 4 1).array_count :=
  c4_invariants_amended [("time", "60"), ("mem", "4G")] ⟨1, 1, 4, 1⟩ (by
    have ht : parse_time_to_hours (dictGet [("time", "60"), ("mem", "4G")] "time") = some 1 := by
      rw [show dictGet [("time", "60"), ("mem", "4G")] "time" = some "60" from rfl,
          show parse_time_to_hours (some "60") = some (((60 : ℕ) : ℚ) / 60) from rfl]
      norm_num
    have hm : parse_mem_to_gigabytes (dictGet [("time", "60"), ("mem", "4G")] "mem") =
        .ok (some ((4 : ℕ) : ℚ)) := by
      rw [show dictGet [("time", "60"), ("mem", "4G")] "mem" = some "4G" from rfl]
      exact parse_mem_gigabyte_value "4G" 4 rfl
    unfold parse_slurmargs
    dsimp only
    rw [ht, hm]
    rfl)

/-- C5 counterexample: with `mem = "1.5G"` normalization raises (the
uncaught `int()` conversion error) although the time directive parses and
memory is derivable from the `mem-per-cpu` fallback, refuting the claimed
"raises only when memory cannot be derived from either". -/
theorem c5_error_policy_counterexample :
    parse_slurmargs [("time", "10"), ("mem", "1.5G"), ("mem-per-cpu", "2G")] =
      .error .memIntConversion ∧
    parse_time_to_hours (some "10") = some (1 / 6) ∧
    parse_mem_to_gigabytes (some "2G") = .ok (some 2) := by
  refine ⟨rfl, ?_, ?_⟩
  · rw [show parse_time_to_hours (some "10") = some (((10 : ℕ) : ℚ) / 60) from rfl]
    norm_num
  · have h := parse_mem_gigabyte_value "2G" 2 rfl
    rw [h]
    norm_num

/-- C5 amended: normalization raises if and only if the time directive is
absent or unparsable, or the `mem` parse raises the uncaught conversion
error, or `mem` yields no value while the `mem-per-cpu` parse raises or
yields no value; malformed or missing array-spec and CPU-layout
directives never appear among the error conditions (they degrade to
defaults). -/
theorem c5_error_policy_amended (d : List (String × String)) :
    (∃ e, parse_slurmargs d = .error e) ↔
      parse_time_to_hours (dictGet d "time") = none ∨
      parse_mem_to_gigabytes (dictGet d "mem") = .error .memIntConversion ∨
      (parse_mem_to_gigabytes (dictGet d "mem") = .ok none ∧
        (parse_mem_to_gigabytes (dictGet d "mem-per-cpu") = .error .memIntConversion ∨
         parse_mem_to_gigabytes (dictGet d "mem-per-cpu") = .ok none)) := by
  unfold parse_slurmargs
  rcases ht : parse_time_to_hours (dictGet d "time") with _ | q
  · simp [ht]
  · dsimp only
    rcases hm : parse_mem_to_gigabytes (dictGet d "mem") with e | m
    · have he := parse_mem_error_eq _ _ hm
      subst he
      simp [ht, hm]
    · rcases m with _ | mv
      · dsimp only
        rcases hm2 : parse_mem_to_gigabytes (dictGet d "mem-per-cpu") with e2 | m2
        · have he := parse_mem_error_eq _ _ hm2
          subst he
          simp [ht, hm, hm2]
        · rcases m2 with _ | m2v
          · simp [ht, hm, hm2]
          · simp [ht, hm, hm2]
      · simp [ht, hm]

/-- C5 witness: a map with unparsable time is rejected, through the
amended characterization. -/
theorem c5_error_policy_witness :
    ∃ e, parse_slurmargs [("time", "bogus")] = .error e :=
  (c5_error_policy_amended [("time", "bogus")]).mpr (Or.inl rfl)

/-- C6 counterexample: the claimed concrete value
`"1-02:03:04" → 26 + 2 + 3/60 + 4/3600` hours contradicts the claim's own
general formula `days*24 + hours + minutes/60 + seconds/3600`: the parser
returns `24 + 2 + 3/60 + 4/3600` (≈ 26.051) and not `26 + 2 + …`
(= 28.051). -/
theorem c6_day_vector_counterexample :
    parse_time_to_hours (some "1-02:03:04") ≠ some (26 + 2 + 3 / 60 + 4 / 3600) ∧
    parse_time_to_hours (some "1-02:03:04") = some (24 + 2 + 3 / 60 + 4 / 3600) := by
  constructor <;>
    rw [show parse_time_to_hours (some "1-02:03:04") =
        some (((1 : ℕ) : ℚ) * 24 + ((2 : ℕ) : ℚ) + ((3 : ℕ) : ℚ) / 60 + ((4 : ℕ) : ℚ) / 3600)
        from rfl]
  · intro h
    have h2 := Option.some.inj h
    norm_num at h2
  · norm_num

/-- C6 amended: the time parser tries D-HH:MM:SS, HH:MM:SS, MM:SS and
bare minutes in this precedence order (first full match wins) with the
formulas `days*24 + hours + minutes/60 + seconds/3600` etc., components
accepted without range capping; in particular
`"1-02:03:04" → 24 + 2 + 3/60 + 4/3600` hours (the claimed `26 + 2 + …`
miscomputes its own formula) and `"90" → 1.5` hours. -/
theorem c6_time_parser_formats (s : String) :
    (∀ d hh mm ss : ℕ, matchDHMS (pyStrip s.data) = some (d, hh, mm, ss) →
      parseTimeString s =
        some ((d : ℚ) * 24 + (hh : ℚ) + (mm : ℚ) / 60 + (ss : ℚ) / 3600)) ∧
    (matchDHMS (pyStrip s.data) = none →
      ∀ hh mm ss : ℕ, matchHMS (pyStrip s.data) = some (hh, mm, ss) →
      parseTimeString s = some ((hh : ℚ) + (mm : ℚ) / 60 + (ss : ℚ) / 3600)) ∧
    (matchDHMS (pyStrip s.data) = none → matchHMS (pyStrip s.data) = none →
      ∀ mm ss : ℕ, matchMMSS (pyStrip s.data) = some (mm, ss) →
      parseTimeString s = some ((mm : ℚ) / 60 + (ss : ℚ) / 3600)) ∧
    (matchDHMS (pyStrip s.data) = none → matchHMS (pyStrip s.data) = none →
      matchMMSS (pyStrip s.data) = none →
      ∀ mm : ℕ, matchMM (pyStrip s.data) = some mm →
      parseTimeString s = some ((mm : ℚ) / 60)) ∧
    parse_time_to_hours (some "1-02:03:04") = some (24 + 2 + 3 / 60 + 4 / 3600) ∧
    parse_time_to_hours (some "90") = some (3 / 2) ∧
    parse_time_to_hours (some "99:59") = some (99 / 60 + 59 / 3600) := by
  refine ⟨?_, ?_, ?_, ?_, ?_, ?_, ?_⟩
  · intro d hh mm ss h1
    unfold parseTimeString
    dsimp only
    rw [h1]
  · intro h1 hh mm ss h2
    unfold parseTimeString
    dsimp only
    rw [h1, h2]
  · intro h1 h2 mm ss h3
    unfold parseTimeString
    dsimp only
    rw [h1, h2, h3]
  · intro h1 h2 h3 mm h4
    unfold parseTimeString
    dsimp only
    rw [h1, h2, h3, h4]
  · rw [show parse_time_to_hours (some "1-02:03:04") =
        some (((1 : ℕ) : ℚ) * 24 + ((2 : ℕ) : ℚ) + ((3 : ℕ) : ℚ) / 60 + ((4 : ℕ) : ℚ) / 3600)
        from rfl]
    norm_num
  · rw [show parse_time_to_hours (some "90") = some (((90 : ℕ) : ℚ) / 60) from rfl]
    norm_num
  · rw [show parse_time_to_hours (some "99:59") =
        some (((99 : ℕ) : ℚ) / 60 + ((59 : ℕ) : ℚ) / 3600) from rfl]
    norm_num

/-- C6 witness: the HH:MM:SS branch applied at `"10:30:00"` after the
D-HH:MM:SS pattern fails. -/
theorem c6_time_parser_witness :
    parseTimeString "10:30:00" =
      some (((10 : ℕ) : ℚ) + ((30 : ℕ) : ℚ) / 60 + ((0 : ℕ) : ℚ) / 3600) :=
  (c6_time_parser_formats "10:30:00").2.1 rfl 10 30 0 rfl

/-- C7: the array-spec parser sums per-item counts over comma-separated
items after stripping any `%N` throttle: a single integer contributes 1;
a range `start-end[:step]` contributes `(end-start)/step + 1` when
`end ≥ start` (non-positive step coerced to 1) and 1 when `end < start`;
an empty spec yields 1; in particular `"0-99%10" → 100` and
`"1,4-8,10-20:5%2" → 9`.  The final conjunct is the summing of the loop:
when no item raises, the total is the sum of the item counts. -/
theorem c7_array_count :
    parse_array_count (some "0-99%10") = 100 ∧
    parse_array_count (some "1,4-8,10-20:5%2") = 9 ∧
    parse_array_count (some "") = 1 ∧
    parse_array_count (some "7") = 1 ∧
    parse_array_count (some "3-7") = 5 ∧
    parse_array_count (some "10-20:5") = 3 ∧
    parse_array_count (some "1-10:0") = 10 ∧
    parse_array_count (some "1-10:-3") = 10 ∧
    parse_array_count (some "9-5") = 1 ∧
    ∀ parts : List (List Char),
      (∀ p ∈ parts, ∃ n, arrayItemCount p = .ok n) →
      sumArrayItems parts =
        .ok ((parts.map fun p => ((arrayItemCount p).toOption.getD 0)).sum) := by
  refine ⟨rfl, rfl, rfl, rfl, rfl, rfl, rfl, rfl, rfl, ?_⟩
  intro parts hp
  induction parts with
  | nil => rfl
  | cons p rest ih =>
    obtain ⟨n, hn⟩ := hp p (List.mem_cons_self p rest)
    have hrest := ih fun q hq => hp q (List.mem_cons_of_mem p hq)
    simp only [sumArrayItems, hn, hrest, List.map_cons, List.sum_cons, Except.toOption,
      Option.getD]

/-- C7 witness: the loop-sum form at a concrete item list. -/
theorem c7_array_count_witness :
    sumArrayItems ["1".data, "4-8".data] =
      .ok ((["1".data, "4-8".data].map fun p => ((arrayItemCount p).toOption.getD 0)).sum) :=
  c7_array_count.2.2.2.2.2.2.2.2.2 ["1".data, "4-8".data] (by
    intro p hp
    rcases List.mem_cons.mp hp with rfl | hp2
    · exact ⟨1, rfl⟩
    · rcases List.mem_cons.mp hp2 with rfl | hp3
      · exact ⟨5, rfl⟩
      · cases hp3)

/-- C8: the cost model computes per-task `cpu_hours = cpus × hours`,
`mem_hours[q] = memory_gb × hours × factor[q]` with the three queue
factors, `charged[q] = max(cpu_hours, mem_hours[q])`, and the total
breakdown is the per-task breakdown scaled elementwise by `array_count`;
in particular `hours=2, cpus=4, memory_gb=10` charges
`max(8, 5.154062) = 8` on the normal queue. -/
theorem c8_cost_model (p : ParsedSlurmArgs) :
    (calculate_sbatch_jobcost_per_queue p).per_task.cpu_hours = (p.cpus : ℚ) * p.hours ∧
    (calculate_sbatch_jobcost_per_queue p).per_task.mem_hours.normal =
      p.memory_gb * p.hours * 0.2577031 ∧
    (calculate_sbatch_jobcost_per_queue p).per_task.mem_hours.bigmem =
      p.memory_gb * p.hours * 0.1104972 ∧
    (calculate_sbatch_jobcost_per_queue p).per_task.mem_hours.hugemem =
      p.memory_gb * p.hours * 0.01059603 ∧
    (calculate_sbatch_jobcost_per_queue p).per_task.charged.normal =
      max ((calculate_sbatch_jobcost_per_queue p).per_task.cpu_hours)
        ((calculate_sbatch_jobcost_per_queue p).per_task.mem_hours.normal) ∧
    (calculate_sbatch_jobcost_per_queue p).per_task.charged.bigmem =
      max ((calculate_sbatch_jobcost_per_queue p).per_task.cpu_hours)
        ((calculate_sbatch_jobcost_per_queue p).per_task.mem_hours.bigmem) ∧
    (calculate_sbatch_jobcost_per_queue p).per_task.charged.hugemem =
      max ((calculate_sbatch_jobcost_per_queue p).per_task.cpu_hours)
        ((calculate_sbatch_jobcost_per_queue p).per_task.mem_hours.hugemem) ∧
    (calculate_sbatch_jobcost_per_queue p).total.cpu_hours =
      (calculate_sbatch_jobcost_per_queue p).per_task.cpu_hours * (p.array_count : ℚ) ∧
    (calculate_sbatch_jobcost_per_queue p).total.mem_hours.normal =
      (calculate_sbatch_jobcost_per_queue p).per_task.mem_hours.normal * (p.array_count : ℚ) ∧
    (calculate_sbatch_jobcost_per_queue p).total.mem_hours.bigmem =
      (calculate_sbatch_jobcost_per_queue p).per_task.mem_hours.bigmem * (p.array_count : ℚ) ∧
    (calculate_sbatch_jobcost_per_queue p).total.mem_hours.hugemem =
      (calculate_sbatch_jobcost_per_queue p).per_task.mem_hours.hugemem * (p.array_count : ℚ) ∧
    (calculate_sbatch_jobcost_per_queue p).total.charged.normal =
      (calculate_sbatch_jobcost_per_queue p).per_task.charged.normal * (p.array_count : ℚ) ∧
    (calculate_sbatch_jobcost_per_queue p).total.charged.bigmem =
      (calculate_sbatch_jobcost_per_queue p).per_task.charged.bigmem * (p.array_count : ℚ) ∧
    (calculate_sbatch_jobcost_per_queue p).total.charged.hugemem =
      (calculate_sbatch_jobcost_per_queue p).per_task.charged.hugemem * (p.array_count : ℚ) ∧
    (calculate_sbatch_jobcost_per_queue ⟨2, 4, 10, 1⟩).per_task.cpu_hours = 8 ∧
    (calculate_sbatch_jobcost_per_queue ⟨2, 4, 10, 1⟩).per_task.mem_hours.normal = 5.154062 ∧
    (calculate_sbatch_jobcost_per_queue ⟨2, 4, 10, 1⟩).per_task.charged.normal = 8 := by
  refine ⟨rfl, rfl, rfl, rfl, rfl, rfl, rfl, rfl, rfl, rfl, rfl, rfl, rfl, rfl, ?_, ?_, ?_⟩
  · show ((4 : ℤ) : ℚ) * 2 = 8
    norm_num
  · show (10 : ℚ) * 2 * NORMAL_QUEUE_MEMORY_FACTOR = 5.154062
    rw [NORMAL_QUEUE_MEMORY_FACTOR]
    norm_num
  · show max (((4 : ℤ) : ℚ) * 2) ((10 : ℚ) * 2 * NORMAL_QUEUE_MEMORY_FACTOR) = 8
    rw [NORMAL_QUEUE_MEMORY_FACTOR]
    rw [max_eq_left (by norm_num)]
    norm_num

/-- C9: header extraction raises the `InvalidHeaderSyntax`-class
`ValueError` if and only if some matched directive's raw value contains
`#`, and that is the only error it can raise, so scripts whose matched
values are `#`-free extract without raising. -/
theorem c9_hash_value_error_iff (lines : List String) :
    (extract_slurmheader_arguments lines = .error .invalidHeaderSyntax ↔
      ∃ l ∈ lines, ∃ kv, lineMatch l = some kv ∧ ('#' : Char) ∈ kv.2.data) ∧
    ∀ e, extract_slurmheader_arguments lines = .error e → e = .invalidHeaderSyntax := by
  constructor
  · unfold extract_slurmheader_arguments
    rw [processMatches_error_iff]
    constructor
    · rintro ⟨kv, hkv, hmem⟩
      obtain ⟨l, hl, hlm⟩ := List.mem_filterMap.mp hkv
      exact ⟨l, hl, kv, hlm, hmem⟩
    · rintro ⟨l, hl, kv, hlm, hmem⟩
      exact ⟨kv, List.mem_filterMap.mpr ⟨l, hl, hlm⟩, hmem⟩
  · intro e h
    exact processMatches_error_only _ _ e h

/-- C9 witness: a directive value containing `#` makes extraction raise. -/
theorem c9_hash_value_witness :
    extract_slurmheader_arguments ["#SBATCH --mem=4#G"] = .error .invalidHeaderSyntax :=
  (c9_hash_value_error_iff ["#SBATCH --mem=4#G"]).1.mpr
    ⟨"#SBATCH --mem=4#G", by simp, ("mem", "4#G"), rfl, by decide⟩

/-- C10: the grammar-matching fractional memory value `"1.5G"` makes
`parse_mem_to_gigabytes` raise the uncaught `int()` error instead of
returning a value or `None`, so normalization aborts on it. -/
theorem c10_fractional_memory_crashes :
    memFullmatch (pyStrip "1.5G".data) = some ("1.5".data, "G".data) ∧
    parse_mem_to_gigabytes (some "1.5G") = .error .memIntConversion ∧
    parse_slurmargs [("time", "10"), ("mem", "1.5G")] = .error .memIntConversion :=
  ⟨rfl, rfl, rfl⟩

end SagaCost
